import Mathlib

/-!
Shallow embedding of the PWA-QR-Reader application (src/app.js): the
`QRCodeReader` controller class and the service worker handlers
(install / activate / fetch), together with theorems settling the
specification claims about them.

Modelling conventions:
* JavaScript strings are Lean `String`s; the opaque media-stream handle is
  a `Nat` identifier wrapped in `Option` (null = `none`).
* Side effects (status messages, result rendering, vibration) are collected
  in an explicit `List Event`.
* Platform capabilities (getUserMedia, network fetch, URL parsing) are
  passed in as explicit function parameters, so the controller logic itself
  is a pure function of the state and the environment.
-/

namespace QR

/-- UI / side-effect events emitted by the controller: `status` models
`showStatus(message, type)`, `resultShown` models `displayResult(data)`,
`vibrate` models `navigator.vibrate(ms)`. -/
inductive Event where
  | status (message : String) (kind : String)
  | resultShown (payload : String)
  | vibrate (ms : Nat)
  deriving DecidableEq, Repr

/-- The mutable fields of `QRCodeReader` that the core logic touches
(src/app.js lines 26-32): `stream` (the media handle, `null` = `none`),
`scanning`, `cameraActive`, `facingMode`, `lastResult`, `frameCount`. -/
structure ReaderState where
  stream : Option Nat
  scanning : Bool
  cameraActive : Bool
  facingMode : String
  lastResult : String
  frameCount : Nat
  deriving DecidableEq, Repr

/-- The constructor's initial state (src/app.js lines 26-32). -/
def initialState : ReaderState :=
  { stream := none
    scanning := false
    cameraActive := false
    facingMode := "environment"
    lastResult := ""
    frameCount := 0 }

/-- `handleQRCode(data)` (src/app.js lines 201-215): if `data` equals
`lastResult`, return immediately with no effect; otherwise set
`lastResult := data`, display the result, show a success status, and
request a 200 ms vibration when the platform supports it
(`vibSupported` models the truthiness of `navigator.vibrate`). -/
def handleQRCode (vibSupported : Bool) (s : ReaderState) (data : String) :
    ReaderState × List Event :=
  if data = s.lastResult then
    (s, [])
  else
    ({ s with lastResult := data },
      [Event.resultShown data,
       Event.status "QRコードを読み取りました！" "success"] ++
        (if vibSupported then [Event.vibrate 200] else []))

/-- Number of `resultShown` events in a list: how many times
`displayResult` fired. -/
def countResults (evs : List Event) : Nat :=
  evs.countP (fun e => match e with
    | Event.resultShown _ => true
    | _ => false)

/-- Deliver a sequence of decoded payloads to `handleQRCode` one after the
other, collecting all emitted events. -/
def processPayloads (vibSupported : Bool) (s : ReaderState) :
    List String → ReaderState × List Event
  | [] => (s, [])
  | d :: ds =>
    let r1 := handleQRCode vibSupported s d
    let r2 := processPayloads vibSupported r1.1 ds
    (r2.1, r1.2 ++ r2.2)

theorem handleQRCode_dup (vibSupported : Bool) (s : ReaderState)
    (data : String) (h : data = s.lastResult) :
    handleQRCode vibSupported s data = (s, []) := by
  simp [handleQRCode, h]

theorem handleQRCode_new (vibSupported : Bool) (s : ReaderState)
    (data : String) (h : data ≠ s.lastResult) :
    handleQRCode vibSupported s data =
      ({ s with lastResult := data },
        [Event.resultShown data,
         Event.status "QRコードを読み取りました！" "success"] ++
          (if vibSupported then [Event.vibrate 200] else [])) := by
  simp [handleQRCode, h]

theorem countResults_append (a b : List Event) :
    countResults (a ++ b) = countResults a + countResults b := by
  simp [countResults, List.countP_append]

/-- A run of payloads all equal to the current `lastResult` leaves the
state untouched and emits nothing at all. -/
theorem processPayloads_dup_all (vibSupported : Bool) (s : ReaderState)
    (p : String) (h : p = s.lastResult) (m : Nat) :
    processPayloads vibSupported s (List.replicate m p) = (s, []) := by
  induction m with
  | zero => simp [processPayloads]
  | succ m ih =>
    rw [List.replicate_succ]
    simp [processPayloads, handleQRCode_dup vibSupported s p h, ih]

/-- After delivering `n+1` copies of the same payload `p`, `lastResult`
is `p` and at most one result event fired (exactly one iff `p` was not
already the last result). -/
theorem processPayloads_replicate (vibSupported : Bool) (s : ReaderState)
    (p : String) (n : Nat) :
    (processPayloads vibSupported s (List.replicate (n + 1) p)).1.lastResult = p ∧
    countResults (processPayloads vibSupported s (List.replicate (n + 1) p)).2 =
      (if p = s.lastResult then 0 else 1) := by
  by_cases h : p = s.lastResult
  · rw [processPayloads_dup_all vibSupported s p h (n + 1)]
    simp [h, countResults]
  · rw [List.replicate_succ]
    simp only [processPayloads, handleQRCode_new vibSupported s p h]
    have h2 : p = ({ s with lastResult := p } : ReaderState).lastResult := rfl
    rw [processPayloads_dup_all vibSupported _ p h2 n]
    refine ⟨rfl, ?_⟩
    cases vibSupported <;> simp [countResults, h]

/-- C1: delivering any run of `n+1` identical payloads `p` produces at most
one result event and leaves `lastResult = p`; a subsequent payload `q ≠ p`
— immediately after the run of duplicates — always produces exactly one
new result event, updates `lastResult` to `q`, and (when the platform
supports vibration) requests a haptic pulse. -/
theorem claim_C1_dedup (vibSupported : Bool) (s : ReaderState)
    (p q : String) (n : Nat) (hq : q ≠ p) :
    (processPayloads vibSupported s (List.replicate (n + 1) p)).1.lastResult = p ∧
    countResults (processPayloads vibSupported s (List.replicate (n + 1) p)).2 ≤ 1 ∧
    countResults (handleQRCode vibSupported
      (processPayloads vibSupported s (List.replicate (n + 1) p)).1 q).2 = 1 ∧
    (handleQRCode vibSupported
      (processPayloads vibSupported s (List.replicate (n + 1) p)).1 q).1.lastResult = q ∧
    (vibSupported = true → Event.vibrate 200 ∈ (handleQRCode vibSupported
      (processPayloads vibSupported s (List.replicate (n + 1) p)).1 q).2) := by
  obtain ⟨hlast, hcount⟩ := processPayloads_replicate vibSupported s p n
  refine ⟨hlast, ?_, ?_, ?_, ?_⟩
  · rw [hcount]; split <;> omega
  · rw [handleQRCode_new vibSupported _ q (by rw [hlast]; exact hq)]
    cases vibSupported <;> simp [countResults]
  · rw [handleQRCode_new vibSupported _ q (by rw [hlast]; exact hq)]
  · intro hv
    rw [handleQRCode_new vibSupported _ q (by rw [hlast]; exact hq), hv]
    simp

theorem claim_C1_dedup_witness :
    ("B" : String) ≠ "A" ∧
    countResults (processPayloads true initialState (List.replicate 2 "A")).2 ≤ 1 ∧
    countResults (handleQRCode true
      (processPayloads true initialState (List.replicate 2 "A")).1 "B").2 = 1 :=
  ⟨by decide,
   (claim_C1_dedup true initialState "A" "B" 1 (by decide)).2.1,
   (claim_C1_dedup true initialState "A" "B" 1 (by decide)).2.2.1⟩

/-- C9: when the decoded payload equals `lastResult`, `handleQRCode`
returns with the state completely unchanged and emits no event at all —
no result rendering, no status, no vibration request. -/
theorem claim_C9_duplicate_noop (vibSupported : Bool) (s : ReaderState)
    (data : String) (h : data = s.lastResult) :
    handleQRCode vibSupported s data = (s, []) := by
  simp [handleQRCode, h]

theorem claim_C9_duplicate_noop_witness :
    handleQRCode true { initialState with lastResult := "X" } "X" =
      ({ initialState with lastResult := "X" }, []) :=
  claim_C9_duplicate_noop true { initialState with lastResult := "X" } "X" rfl

/-- `this.facingMode === 'environment' ? 'user' : 'environment'`
(src/app.js lines 80 and 92). -/
def flipFacing (f : String) : String :=
  if f = "environment" then "user" else "environment"

/-- `stopScanning()` (src/app.js lines 149-151). -/
def stopScanning (s : ReaderState) : ReaderState :=
  { s with scanning := false }

/-- `stopCamera()` (src/app.js lines 128-136): stop all tracks and drop
the handle (`stream := none`), detach the video element (not modelled:
DOM only), clear `cameraActive`, stop scanning. -/
def stopCamera (s : ReaderState) : ReaderState :=
  stopScanning { s with stream := none, cameraActive := false }

/-- `startCamera()` (src/app.js lines 99-123). `gum` models
`navigator.mediaDevices.getUserMedia` restricted to the facing string
(the 1280×720 ideal-resolution constraint does not affect control flow):
it yields a fresh handle or a platform error message. On success the
handle is stored and `cameraActive` is set (scanning begins later, on
the once-only `loadedmetadata` event). On failure `cameraActive` is
cleared and the error re-thrown (`.error` carries the message and the
state at the throw); `stream` is not written on failure because the
exception fires before the assignment. -/
def startCamera (gum : String → Except String Nat) (s : ReaderState) :
    Except (String × ReaderState) ReaderState :=
  match gum s.facingMode with
  | .ok h => .ok { s with stream := some h, cameraActive := true }
  | .error e => .error (e, { s with cameraActive := false })

/-- `switchCamera()` (src/app.js lines 73-94): error status if the camera
is not active; otherwise flip `facingMode`, stop the camera, and try to
restart it. On success show a success status naming the new side; on
failure (caught — the function never throws) show an error status and
flip `facingMode` back. -/
def switchCamera (gum : String → Except String Nat) (s : ReaderState) :
    ReaderState × List Event :=
  if !s.cameraActive then
    (s, [Event.status "カメラが起動していません" "error"])
  else
    let s1 := { s with facingMode := flipFacing s.facingMode }
    let s2 := stopCamera s1
    match startCamera gum s2 with
    | .ok s3 =>
        (s3,
         [Event.status
            ((if s3.facingMode = "environment" then "背面" else "前面") ++
              "カメラに切り替えました") "success"])
    | .error (_, s3) =>
        ({ s3 with facingMode := flipFacing s3.facingMode },
         [Event.status "カメラの切り替えに失敗しました" "error"])

/-- A concrete state with an active back-camera session, for witnesses
and counterexamples. -/
def activeEnvState : ReaderState :=
  { stream := some 0
    scanning := true
    cameraActive := true
    facingMode := "environment"
    lastResult := ""
    frameCount := 5 }

theorem flipFacing_flipFacing (f : String)
    (h : f = "environment" ∨ f = "user") :
    flipFacing (flipFacing f) = f := by
  rcases h with h | h <;> simp [flipFacing, h]

/-- C2: with an active session and a valid facing flag, if acquiring the
flipped facing fails then `switchCamera` returns normally (it is a total
function — no exception propagates) with `facingMode` back at its
pre-switch value, no media handle, `cameraActive` and `scanning` both
false, and an error status emitted. -/
theorem claim_C2_switch_failure (gum : String → Except String Nat)
    (s : ReaderState) (e : String)
    (hactive : s.cameraActive = true)
    (hfacing : s.facingMode = "environment" ∨ s.facingMode = "user")
    (hfail : gum (flipFacing s.facingMode) = .error e) :
    (switchCamera gum s).1.facingMode = s.facingMode ∧
    (switchCamera gum s).1.stream = none ∧
    (switchCamera gum s).1.cameraActive = false ∧
    (switchCamera gum s).1.scanning = false ∧
    Event.status "カメラの切り替えに失敗しました" "error" ∈ (switchCamera gum s).2 := by
  simp only [switchCamera, hactive, Bool.not_true, Bool.false_eq_true, if_false,
    stopCamera, stopScanning, startCamera, hfail]
  refine ⟨flipFacing_flipFacing s.facingMode hfacing, ?_, ?_, ?_, ?_⟩ <;> simp

theorem claim_C2_switch_failure_witness :
    (fun (_ : String) => (.error "NotAllowedError" : Except String Nat))
        (flipFacing activeEnvState.facingMode) = .error "NotAllowedError" ∧
    (switchCamera (fun _ => .error "NotAllowedError") activeEnvState).1.facingMode =
      activeEnvState.facingMode ∧
    (switchCamera (fun _ => .error "NotAllowedError") activeEnvState).1.cameraActive = false :=
  ⟨rfl,
   (claim_C2_switch_failure (fun _ => .error "NotAllowedError") activeEnvState
      "NotAllowedError" rfl (Or.inl rfl) rfl).1,
   (claim_C2_switch_failure (fun _ => .error "NotAllowedError") activeEnvState
      "NotAllowedError" rfl (Or.inl rfl) rfl).2.2.1⟩

/-- Per-tick environment of the scan loop: whether the video element
reports `HAVE_ENOUGH_DATA` on this tick, and the result of the `jsQR`
call on the current frame (`none` = no code detected). The source always
passes `inversionAttempts: "dontInvert"`, which does not affect control
flow. -/
structure ScanEnv where
  hasEnoughData : Bool
  decoded : Option String
  deriving DecidableEq, Repr

/-- Observation of one `scan()` tick: the state after the tick, the
events it emitted, whether decode work (frame copy, `getImageData`,
`jsQR`) ran, and whether `requestAnimationFrame` was called again. -/
structure ScanTick where
  state : ReaderState
  events : List Event
  didWork : Bool
  rescheduled : Bool
  deriving DecidableEq, Repr

/-- One tick of `scan()` (src/app.js lines 156-195): return at once if
`scanning` or `cameraActive` is off (no reschedule); otherwise increment
`frameCount`; when it is a multiple of 3 and a full frame is available,
do the decode work and hand any payload to `handleQRCode`; in every
non-returning case call `requestAnimationFrame` again. -/
def scan (env : ScanEnv) (vibSupported : Bool) (s : ReaderState) : ScanTick :=
  if !s.scanning || !s.cameraActive then
    ⟨s, [], false, false⟩
  else
    let s1 := { s with frameCount := s.frameCount + 1 }
    if s1.frameCount % 3 = 0 then
      if env.hasEnoughData then
        match env.decoded with
        | some data =>
          let r := handleQRCode vibSupported s1 data
          ⟨r.1, r.2, true, true⟩
        | none => ⟨s1, [], true, true⟩
      else ⟨s1, [], false, true⟩
    else ⟨s1, [], false, true⟩

/-- `startScanning()` (src/app.js lines 141-144): set `scanning := true`
and immediately run the first `scan()` tick. Note: `frameCount` is NOT
written here. -/
def startScanning (env : ScanEnv) (vibSupported : Bool) (s : ReaderState) :
    ReaderState × List Event :=
  let t := scan env vibSupported { s with scanning := true }
  (t.state, t.events)

/-- Log of a multi-tick run of the poll loop: final state, all events,
and per-tick `didWork` / `rescheduled` flags. -/
structure RunLog where
  state : ReaderState
  events : List Event
  works : List Bool
  scheds : List Bool
  deriving DecidableEq, Repr

/-- Drive the poll loop with one `ScanEnv` per scheduled tick, stopping
early if a tick does not call `requestAnimationFrame` (after which no
further tick is scheduled). -/
def scanRun (vibSupported : Bool) : List ScanEnv → ReaderState → RunLog
  | [], s => ⟨s, [], [], []⟩
  | e :: es, s =>
    let t := scan e vibSupported s
    if t.rescheduled then
      let r := scanRun vibSupported es t.state
      ⟨r.state, t.events ++ r.events, t.didWork :: r.works, t.rescheduled :: r.scheds⟩
    else
      ⟨t.state, t.events, [t.didWork], [t.rescheduled]⟩

theorem handleQRCode_preserves (vibSupported : Bool) (s : ReaderState)
    (data : String) :
    (handleQRCode vibSupported s data).1.scanning = s.scanning ∧
    (handleQRCode vibSupported s data).1.cameraActive = s.cameraActive ∧
    (handleQRCode vibSupported s data).1.frameCount = s.frameCount := by
  by_cases h : data = s.lastResult <;> simp [handleQRCode, h]

/-- Characterisation of one tick while the session is live: the flags
stay on, `frameCount` goes up by one, decode work runs exactly on the
multiples of 3 (given a full frame), and the tick always reschedules. -/
theorem scan_active (env : ScanEnv) (vibSupported : Bool) (s : ReaderState)
    (hs : s.scanning = true) (ha : s.cameraActive = true) :
    (scan env vibSupported s).state.scanning = true ∧
    (scan env vibSupported s).state.cameraActive = true ∧
    (scan env vibSupported s).state.frameCount = s.frameCount + 1 ∧
    (scan env vibSupported s).didWork =
      (decide ((s.frameCount + 1) % 3 = 0) && env.hasEnoughData) ∧
    (scan env vibSupported s).rescheduled = true := by
  simp only [scan, hs, ha, Bool.not_true, Bool.or_self, Bool.false_eq_true, if_false]
  by_cases h3 : (s.frameCount + 1) % 3 = 0
  · by_cases hd : env.hasEnoughData
    · cases hdec : env.decoded with
      | none => simp [h3, hd, hdec]
      | some data =>
        simp only [h3, hd, hdec, if_true]
        have hp := handleQRCode_preserves vibSupported
          { s with frameCount := s.frameCount + 1 } data
        simp_all
    · simp [h3, hd]
  · simp [h3]

/-- Expected decode-work pattern of `n` live ticks starting from frame
counter `fc`: tick `t` (1-based) does work iff `(fc + t) % 3 = 0`. -/
def workPattern (fc : Nat) : Nat → List Bool
  | 0 => []
  | n + 1 => decide ((fc + 1) % 3 = 0) :: workPattern (fc + 1) n

/-- A run of live ticks with frames always available: decode work follows
`workPattern`, every tick reschedules, the counter advances by one per
tick, and the session flags stay on. -/
theorem scanRun_active (vibSupported : Bool) (envs : List ScanEnv) :
    ∀ s : ReaderState, s.scanning = true → s.cameraActive = true →
    (∀ e ∈ envs, e.hasEnoughData = true) →
    (scanRun vibSupported envs s).works = workPattern s.frameCount envs.length ∧
    (scanRun vibSupported envs s).scheds = List.replicate envs.length true ∧
    (scanRun vibSupported envs s).state.frameCount = s.frameCount + envs.length ∧
    (scanRun vibSupported envs s).state.scanning = true ∧
    (scanRun vibSupported envs s).state.cameraActive = true := by
  induction envs with
  | nil =>
    intro s hs ha _
    simp [scanRun, workPattern, hs, ha]
  | cons e es ih =>
    intro s hs ha hready
    obtain ⟨h1, h2, h3, h4, h5⟩ := scan_active e vibSupported s hs ha
    have hed : e.hasEnoughData = true := hready e (List.mem_cons_self e es)
    have hes : ∀ x ∈ es, x.hasEnoughData = true :=
      fun x hx => hready x (List.mem_cons_of_mem e hx)
    obtain ⟨w1, w2, w3, w4, w5⟩ := ih (scan e vibSupported s).state h1 h2 hes
    simp only [scanRun, h5, if_true]
    refine ⟨?_, ?_, ?_, w4, w5⟩
    · rw [List.length_cons, workPattern, w1, h3, h4, hed, Bool.and_true]
    · rw [List.length_cons, List.replicate_succ, w2]
    · rw [w3, h3, List.length_cons]
      omega

/-- C4: from a freshly started session (`frameCount = 0`, flags on), any
9 scheduled ticks with frames available do decode work exactly on ticks
3, 6 and 9 and on no other tick, and every tick — off-ticks included —
reschedules the loop. -/
theorem claim_C4_sampling (vibSupported : Bool) (envs : List ScanEnv)
    (s : ReaderState) (hlen : envs.length = 9)
    (hready : ∀ e ∈ envs, e.hasEnoughData = true)
    (hs : s.scanning = true) (ha : s.cameraActive = true)
    (hfc : s.frameCount = 0) :
    (scanRun vibSupported envs s).works =
      [false, false, true, false, false, true, false, false, true] ∧
    (scanRun vibSupported envs s).scheds = List.replicate 9 true := by
  obtain ⟨w1, w2, _, _, _⟩ := scanRun_active vibSupported envs s hs ha hready
  rw [w1, w2, hlen, hfc]
  exact ⟨by decide, rfl⟩

/-- A concrete freshly started session (frame counter still 0). -/
def freshScanState : ReaderState :=
  { stream := some 0
    scanning := true
    cameraActive := true
    facingMode := "environment"
    lastResult := ""
    frameCount := 0 }

theorem claim_C4_sampling_witness :
    (List.replicate 9 (⟨true, none⟩ : ScanEnv)).length = 9 ∧
    (scanRun true (List.replicate 9 (⟨true, none⟩ : ScanEnv)) freshScanState).works =
      [false, false, true, false, false, true, false, false, true] :=
  ⟨rfl,
   (claim_C4_sampling true (List.replicate 9 ⟨true, none⟩) freshScanState rfl
      (fun e he => by rw [List.eq_of_mem_replicate he])
      rfl rfl rfl).1⟩

/-- C3 counterexample: `startScanning` does not reset the frame counter.
Starting the loop on a state whose previous session left
`frameCount = 5` yields `frameCount = 6` (the immediately-run first tick
increments it), not `0`. -/
theorem claim_C3_counterexample :
    activeEnvState.frameCount = 5 ∧
    (startScanning ⟨true, none⟩ true activeEnvState).1.scanning = true ∧
    (startScanning ⟨true, none⟩ true activeEnvState).1.frameCount = 6 ∧
    (startScanning ⟨true, none⟩ true activeEnvState).1.frameCount ≠ 0 := by
  refine ⟨rfl, ?_, ?_, ?_⟩ <;> decide

/-- C3 amended: when the scan loop starts, `scanning` is set to `true`,
but `frameCount` is NOT reset — it carries over its value from any
previous session within the same page lifetime (advanced by the first
tick that `startScanning` runs immediately when the camera is active);
`frameCount` is `0` only because the constructor initialises it so. -/
theorem claim_C3_amended (env : ScanEnv) (vibSupported : Bool)
    (s : ReaderState) :
    (startScanning env vibSupported s).1.scanning = true ∧
    (startScanning env vibSupported s).1.frameCount =
      (if s.cameraActive then s.frameCount + 1 else s.frameCount) ∧
    initialState.frameCount = 0 := by
  by_cases hc : s.cameraActive = true
  · obtain ⟨h1, _, h3, _, _⟩ :=
      scan_active env vibSupported { s with scanning := true } rfl hc
    exact ⟨h1, by rw [if_pos hc]; exact h3, rfl⟩
  · have hc2 : s.cameraActive = false := by
      cases h : s.cameraActive
      · rfl
      · exact absurd h hc
    refine ⟨?_, ?_, rfl⟩ <;> simp [startScanning, scan, hc2]

/-! ### Service worker (service-worker.js part of src/app.js, lines 341-455) -/

/-- A fetch `Response`: status code, status text, response type
(`"basic"`, `"cors"`, `"error"`, `"default"`, ...) and body.
`response.clone()` is modelled as the identity on this value. -/
structure Response where
  status : Nat
  statusText : String
  rtype : String
  body : String
  deriving DecidableEq, Repr

/-- One named cache store: request-URL → response pairs; `cache.put`
overwrites the entry for its key. -/
abbrev CacheStore := List (String × Response)

/-- The browser cache storage: named stores in creation order. -/
abbrev CacheStorage := List (String × CacheStore)

/-- `const CACHE_NAME = 'qr-reader-v1'` (src/app.js line 346). -/
def CACHE_NAME : String := "qr-reader-v1"

/-- `const urlsToCache = [...]` (src/app.js lines 347-355). -/
def urlsToCache : List String :=
  ["/PWA-QR-Reader/",
   "/PWA-QR-Reader/index.html",
   "/PWA-QR-Reader/styles.css",
   "/PWA-QR-Reader/app.js",
   "/PWA-QR-Reader/manifest.json",
   "/PWA-QR-Reader/icon-192.png",
   "/PWA-QR-Reader/icon-512.png"]

/-- `cache.match(request)` within one store. -/
def lookupEntry (store : CacheStore) (url : String) : Option Response :=
  (store.find? (fun q => q.1 == url)).map Prod.snd

/-- `cache.put(request, response)`: overwrite the entry for the key. -/
def putEntry (store : CacheStore) (url : String) (r : Response) : CacheStore :=
  store.filter (fun q => !(q.1 == url)) ++ [(url, r)]

/-- `caches.open(name)`: create the named store (empty) if absent. -/
def openCache (name : String) (cs : CacheStorage) : CacheStorage :=
  if cs.any (fun p => p.1 == name) then cs else cs ++ [(name, [])]

/-- Content of the named store, if it exists. -/
def getStore (cs : CacheStorage) (name : String) : Option CacheStore :=
  (cs.find? (fun p => p.1 == name)).map Prod.snd

/-- Replace the content of the named store (no-op on absent names). -/
def setStore : CacheStorage → String → CacheStore → CacheStorage
  | [], _, _ => []
  | p :: ps, name, st =>
    (if p.1 == name then (p.1, st) else p) :: setStore ps name st

/-- `caches.open(name)` followed by `cache.put(url, r)` on the opened
store. -/
def putInStorage (cs : CacheStorage) (name url : String) (r : Response) :
    CacheStorage :=
  setStore (openCache name cs) name
    (putEntry ((getStore (openCache name cs) name).getD []) url r)

/-- `caches.match(request)`: search every store in order. -/
def matchRequest (cs : CacheStorage) (url : String) : Option Response :=
  cs.findSome? (fun p => lookupEntry p.2 url)

/-- `response.ok` of the Fetch API: status in 200..299. -/
def respOk (r : Response) : Bool := 200 ≤ r.status && r.status ≤ 299

/-- Fetch every URL in order; fail on the first network error or non-ok
status. Auxiliary to `addAll`. -/
def fetchAll (net : String → Except String Response) :
    List String → Except String (List (String × Response))
  | [] => .ok []
  | u :: us =>
    match net u with
    | .error e => .error e
    | .ok r =>
      if respOk r then
        match fetchAll net us with
        | .ok rest => .ok ((u, r) :: rest)
        | .error e => .error e
      else .error "addAll: response not ok"

/-- Models `cache.addAll(urls)` of the Cache API (an external capability,
used at src/app.js line 368): fetch all URLs and store them as one atomic
batch — if any single fetch rejects or yields a non-ok status, the whole
operation rejects and the store is left unchanged. -/
def addAll (net : String → Except String Response) (store : CacheStore)
    (urls : List String) : Except String CacheStore :=
  match fetchAll net urls with
  | .ok entries => .ok (entries.foldl (fun acc p => putEntry acc p.1 p.2) store)
  | .error e => .error e

/-- Outcome of the install handler: the cache storage afterwards, whether
`skipWaiting()` was signalled, and whether the error path logged. -/
structure InstallResult where
  storage : CacheStorage
  skippedWaiting : Bool
  loggedError : Bool
  deriving DecidableEq, Repr

/-- The `install` handler (src/app.js lines 361-378): open the store named
`CACHE_NAME`, run `cache.addAll(urlsToCache)`; on success signal
`skipWaiting()`; on failure log the error — the rejection is caught, so
the handler always returns normally. -/
def onInstall (net : String → Except String Response) (cs : CacheStorage) :
    InstallResult :=
  let cs1 := openCache CACHE_NAME cs
  let store := (getStore cs1 CACHE_NAME).getD []
  match addAll net store urlsToCache with
  | .ok newStore => ⟨setStore cs1 CACHE_NAME newStore, true, false⟩
  | .error _ => ⟨cs1, false, true⟩

theorem getStore_openCache_fresh (cs : CacheStorage) (name : String)
    (h : getStore cs name = none) :
    openCache name cs = cs ++ [(name, [])] ∧
    getStore (openCache name cs) name = some [] := by
  have hnone : cs.find? (fun p => p.1 == name) = none := by
    cases hf : cs.find? (fun p => p.1 == name) with
    | none => rfl
    | some p => simp [getStore, hf] at h
  have hany : cs.any (fun p => p.1 == name) = false := by
    rw [List.any_eq_false]
    intro x hx
    exact (List.find?_eq_none.mp hnone) x hx
  refine ⟨by simp [openCache, hany], ?_⟩
  simp [openCache, hany, getStore, List.find?_append, hnone, List.find?]

theorem lookupEntry_putEntry_self (store : CacheStore) (u : String)
    (r : Response) :
    lookupEntry (putEntry store u r) u = some r := by
  have hfilter : (store.filter (fun q => !(q.1 == u))).find?
      (fun q => q.1 == u) = none := by
    rw [List.find?_eq_none]
    intro x hx
    have hpx := List.of_mem_filter hx
    simp at hpx ⊢
    exact hpx
  simp [lookupEntry, putEntry, List.find?_append, hfilter, List.find?]

theorem lookupEntry_putEntry_other (store : CacheStore) (u0 u : String)
    (r0 : Response) (h : u ≠ u0) :
    lookupEntry (putEntry store u0 r0) u = lookupEntry store u := by
  have hbu : (u0 == u) = false := beq_eq_false_iff_ne.mpr (Ne.symm h)
  have hbu2 : (u == u0) = false := beq_eq_false_iff_ne.mpr h
  have hfilter : ∀ l : CacheStore,
      (l.filter (fun q => !(q.1 == u0))).find? (fun q => q.1 == u) =
        l.find? (fun q => q.1 == u) := by
    intro l
    induction l with
    | nil => rfl
    | cons q qs ih =>
      by_cases hq1 : q.1 = u0
      · simp [List.filter_cons, hq1, List.find?_cons, hbu, hbu2, ih]
      · by_cases hq2 : q.1 = u
        · simp [List.filter_cons, hq1, List.find?_cons, hq2, h, hbu2, ih]
        · simp [List.filter_cons, hq1, List.find?_cons, hq2, h, hbu2, ih]
  have hsingle : ([(u0, r0)] : CacheStore).find? (fun q => q.1 == u) = none := by
    simp [List.find?, hbu]
  simp [lookupEntry, putEntry, List.find?_append, hfilter, hsingle]

theorem lookup_foldl_not_mem (entries : List (String × Response)) :
    ∀ (st : CacheStore) (u : String), u ∉ entries.map Prod.fst →
    lookupEntry (entries.foldl (fun acc p => putEntry acc p.1 p.2) st) u =
      lookupEntry st u := by
  induction entries with
  | nil => intro st u _; rfl
  | cons p ps ih =>
    intro st u hu
    simp only [List.map_cons, List.mem_cons, not_or] at hu
    rw [List.foldl_cons, ih _ u hu.2,
      lookupEntry_putEntry_other st p.1 u p.2 hu.1]

theorem lookup_foldl_mem (entries : List (String × Response)) :
    ∀ (st : CacheStore) (u : String) (r : Response),
    (entries.map Prod.fst).Nodup → (u, r) ∈ entries →
    lookupEntry (entries.foldl (fun acc p => putEntry acc p.1 p.2) st) u =
      some r := by
  induction entries with
  | nil => intro st u r _ hmem; cases hmem
  | cons p ps ih =>
    intro st u r hnd hmem
    simp only [List.map_cons, List.nodup_cons] at hnd
    rw [List.foldl_cons]
    rcases List.mem_cons.mp hmem with heq | hmem2
    · have h1 : p.1 = u := by rw [← heq]
      have h2 : p.2 = r := by rw [← heq]
      rw [lookup_foldl_not_mem ps _ u (h1 ▸ hnd.1), ← h1, ← h2]
      exact lookupEntry_putEntry_self st p.1 p.2
    · exact ih _ u r hnd.2 hmem2

theorem fetchAll_error (net : String → Except String Response) :
    ∀ urls : List String, (∃ u ∈ urls, ∃ e, net u = .error e) →
    ∃ msg, fetchAll net urls = .error msg := by
  intro urls
  induction urls with
  | nil => rintro ⟨u, hu, _⟩; cases hu
  | cons v vs ih =>
    rintro ⟨u, hu, e, he⟩
    cases hnet : net v with
    | error e2 => exact ⟨e2, by simp [fetchAll, hnet]⟩
    | ok r =>
      by_cases hok : respOk r = true
      · have huvs : u ∈ vs := by
          rcases List.mem_cons.mp hu with rfl | h2
          · rw [hnet] at he; cases he
          · exact h2
        obtain ⟨msg, hmsg⟩ := ih ⟨u, huvs, e, he⟩
        exact ⟨msg, by simp [fetchAll, hnet, hok, hmsg]⟩
      · exact ⟨"addAll: response not ok", by
          simp only [Bool.not_eq_true] at hok
          simp [fetchAll, hnet, hok]⟩

theorem fetchAll_ok (net : String → Except String Response) :
    ∀ urls : List String, (∀ u ∈ urls, ∃ r, net u = .ok r ∧ respOk r = true) →
    ∃ entries, fetchAll net urls = .ok entries ∧
      entries.map Prod.fst = urls ∧
      ∀ p ∈ entries, net p.1 = .ok p.2 := by
  intro urls
  induction urls with
  | nil => intro _; exact ⟨[], rfl, rfl, fun p hp => absurd hp (List.not_mem_nil p)⟩
  | cons v vs ih =>
    intro h
    obtain ⟨r, hr, hok⟩ := h v (List.mem_cons_self v vs)
    obtain ⟨entries, he, hmap, hnet⟩ := ih (fun u hu => h u (List.mem_cons_of_mem v hu))
    refine ⟨(v, r) :: entries, by simp [fetchAll, hr, hok, he], by simp [hmap], ?_⟩
    intro p hp
    rcases List.mem_cons.mp hp with rfl | h2
    · exact hr
    · exact hnet p h2

theorem getStore_setStore (cs : CacheStorage) (name : String)
    (st1 : CacheStore) :
    ∀ st0, getStore cs name = some st0 →
    getStore (setStore cs name st1) name = some st1 := by
  induction cs with
  | nil => intro st0 h; simp [getStore, List.find?] at h
  | cons p ps ih =>
    intro st0 h
    cases hb : (p.1 == name) with
    | true => simp [setStore, getStore, List.find?_cons, hb]
    | false =>
      have h2 : getStore ps name = some st0 := by
        simpa [getStore, List.find?_cons, hb] using h
      simpa [setStore, getStore, List.find?_cons, hb] using ih st0 h2

/-- C5: on a fresh install (no store named `CACHE_NAME` yet). Failure
half: if any URL of the manifest fails to fetch, the whole group fails —
the new store is created but holds no entry at all (it can serve none of
the other URLs), `skipWaiting` is not signalled, and the error is logged
(the handler returns normally rather than crashing). Success half: if
every URL fetches with an ok status, `skipWaiting` is signalled and every
manifest URL is retrievable from the new store. -/
theorem claim_C5_install_atomic (net : String → Except String Response)
    (cs : CacheStorage) (hfresh : getStore cs CACHE_NAME = none) :
    ((∃ u ∈ urlsToCache, ∃ e, net u = .error e) →
      getStore (onInstall net cs).storage CACHE_NAME = some [] ∧
      (∀ u, lookupEntry ((getStore (onInstall net cs).storage CACHE_NAME).getD []) u = none) ∧
      (onInstall net cs).skippedWaiting = false ∧
      (onInstall net cs).loggedError = true) ∧
    ((∀ u ∈ urlsToCache, ∃ r, net u = .ok r ∧ respOk r = true) →
      (onInstall net cs).skippedWaiting = true ∧
      (onInstall net cs).loggedError = false ∧
      ∀ u ∈ urlsToCache, ∃ r, net u = .ok r ∧
        lookupEntry ((getStore (onInstall net cs).storage CACHE_NAME).getD []) u = some r) := by
  obtain ⟨hopen, hget⟩ := getStore_openCache_fresh cs CACHE_NAME hfresh
  have hstore0 : (getStore (openCache CACHE_NAME cs) CACHE_NAME).getD [] = [] := by
    rw [hget]; rfl
  constructor
  · intro hexist
    obtain ⟨msg, hmsg⟩ := fetchAll_error net urlsToCache hexist
    have hinst : onInstall net cs = ⟨openCache CACHE_NAME cs, false, true⟩ := by
      simp [onInstall, addAll, hstore0, hmsg]
    rw [hinst]
    exact ⟨hget, fun u => by simp [hget, lookupEntry], rfl, rfl⟩
  · intro hall
    obtain ⟨entries, hfa, hmap, hnet⟩ := fetchAll_ok net urlsToCache hall
    have hinst : onInstall net cs =
        ⟨setStore (openCache CACHE_NAME cs) CACHE_NAME
           (entries.foldl (fun acc p => putEntry acc p.1 p.2) []), true, false⟩ := by
      simp [onInstall, addAll, hstore0, hfa]
    have hnd : (entries.map Prod.fst).Nodup := by
      rw [hmap]; decide
    have hgot : getStore (setStore (openCache CACHE_NAME cs) CACHE_NAME
        (entries.foldl (fun acc p => putEntry acc p.1 p.2) [])) CACHE_NAME =
        some (entries.foldl (fun acc p => putEntry acc p.1 p.2) []) :=
      getStore_setStore (openCache CACHE_NAME cs) CACHE_NAME _ [] hget
    rw [hinst]
    refine ⟨rfl, rfl, ?_⟩
    intro u hu
    have hu2 : u ∈ entries.map Prod.fst := by rw [hmap]; exact hu
    obtain ⟨p, hp, hpu⟩ := List.mem_map.mp hu2
    have hmem : (u, p.2) ∈ entries := by
      rw [← hpu]
      exact hp
    refine ⟨p.2, by rw [← hpu]; exact hnet p hp, ?_⟩
    simp only [hgot, Option.getD_some]
    exact lookup_foldl_mem entries [] u p.2 hnd hmem

theorem claim_C5_install_atomic_witness :
    getStore [] CACHE_NAME = none ∧
    getStore (onInstall (fun _ => .error "ENETDOWN") []).storage CACHE_NAME = some [] ∧
    (onInstall (fun _ => .error "ENETDOWN") []).skippedWaiting = false ∧
    (onInstall (fun _ => .error "ENETDOWN") []).loggedError = true :=
  have h := (claim_C5_install_atomic (fun _ => .error "ENETDOWN") [] rfl).1
    ⟨"/PWA-QR-Reader/", by decide, "ENETDOWN", rfl⟩
  ⟨rfl, h.1, h.2.2.1, h.2.2.2⟩

/-- Outcome of the activate handler: storage afterwards, names deleted,
and whether `clients.claim()` was signalled. -/
structure ActivateResult where
  storage : CacheStorage
  deleted : List String
  claimed : Bool
  deriving DecidableEq, Repr

/-- The `activate` handler (src/app.js lines 384-402), parametrised by the
current cache name: enumerate `caches.keys()`, delete every store whose
name differs from the current one, then signal `clients.claim()`. -/
def swActivate (current : String) (cs : CacheStorage) : ActivateResult :=
  { storage := cs.filter (fun p => p.1 == current)
    deleted := (cs.map Prod.fst).filter (fun n => !(n == current))
    claimed := true }

/-- The repository's activate handler: `swActivate` at `CACHE_NAME`. -/
def onActivate : CacheStorage → ActivateResult :=
  swActivate CACHE_NAME

/-- C7: the activate handler deletes exactly the stores whose name differs
from the current cache name and keeps exactly those that bear it, then
signals `clients.claim()`; in particular on stores {v1, v2} with current
name v2, only v1 is deleted and only v2 survives. -/
theorem claim_C7_activate_gc (current : String) (cs : CacheStorage) :
    (swActivate current cs).storage.map Prod.fst =
      (cs.map Prod.fst).filter (fun n => n == current) ∧
    (swActivate current cs).deleted =
      (cs.map Prod.fst).filter (fun n => !(n == current)) ∧
    (swActivate current cs).claimed = true ∧
    onActivate cs = swActivate CACHE_NAME cs ∧
    (swActivate "v2" [("v1", []), ("v2", [])]).deleted = ["v1"] ∧
    (swActivate "v2" [("v1", []), ("v2", [])]).storage.map Prod.fst = ["v2"] := by
  refine ⟨?_, rfl, rfl, rfl, by decide, by decide⟩
  conv_rhs => rw [List.filter_map]
  rfl

/-- Request environment of one fetch interception: the network (`fetch`),
and failure injection for the cache lookup (`caches.match` rejecting)
and the write-through store (`caches.open(...)/cache.put` rejecting). -/
structure FetchEnv where
  net : String → Except String Response
  matchFails : Bool
  putFails : Bool

/-- Outcome of one fetch interception: the response the handler resolves
with, the cache storage afterwards, and whether a rejection escaped
unhandled (the detached `caches.open(...).then(cache.put)` promise). -/
structure FetchOutcome where
  response : Response
  storage : CacheStorage
  unhandledRejection : Bool
  deriving DecidableEq, Repr

/-- The synthesized offline fallback (src/app.js lines 449-452). -/
def offlineResponse : Response :=
  { status := 503
    statusText := "Service Unavailable"
    rtype := "default"
    body := "オフラインです" }

/-- The synthesized jsQR-CDN fallback (src/app.js lines 413-416). -/
def jsqrOfflineResponse : Response :=
  { status := 503
    statusText := "Service Unavailable"
    rtype := "default"
    body := "オフラインです。jsQRライブラリを読み込めません。" }

/-- `s.startsWith(pre)` of JavaScript strings: `pre` is a prefix of `s`.
(`String.startsWith` of the Lean core library is equivalent but does not
reduce in the kernel, so the character-list version is used.) -/
def startsWithStr (s pre : String) : Bool :=
  pre.data.isPrefixOf s.data

/-- The `fetch` handler (src/app.js lines 408-455). CDN requests bypass
the cache: network, else a synthesized 503. Other requests: cache-first
lookup (a lookup failure is caught by the outer `.catch` → 503); on a
hit the stored response is returned unchanged; on a miss the network is
fetched (failure caught → 503); a 200 `basic` response is returned and
its clone stored under the request key — but that store runs in a
detached promise, so its failure leaves the returned response and the
cache as they are and escapes as an unhandled rejection. Other responses
are returned unmodified and not cached. (`!response` — fetch resolving
to a falsy value — cannot occur and is not modelled.) -/
def onFetch (env : FetchEnv) (cs : CacheStorage) (url : String) :
    FetchOutcome :=
  if startsWithStr url "https://cdn.jsdelivr.net/" then
    match env.net url with
    | .ok r => ⟨r, cs, false⟩
    | .error _ => ⟨jsqrOfflineResponse, cs, false⟩
  else if env.matchFails then
    ⟨offlineResponse, cs, false⟩
  else
    match matchRequest cs url with
    | some r => ⟨r, cs, false⟩
    | none =>
      match env.net url with
      | .error _ => ⟨offlineResponse, cs, false⟩
      | .ok r =>
        if r.status ≠ 200 ∨ r.rtype ≠ "basic" then
          ⟨r, cs, false⟩
        else if env.putFails then
          ⟨r, cs, true⟩
        else
          ⟨r, putInStorage cs CACHE_NAME url r, false⟩

theorem matchRequest_openCache (cs : CacheStorage) (name url : String)
    (h : matchRequest cs url = none) :
    matchRequest (openCache name cs) url = none := by
  unfold openCache
  split
  · exact h
  · rw [matchRequest, List.findSome?_append]
    rw [matchRequest] at h
    rw [h]
    rfl

theorem getStore_openCache_isSome (cs : CacheStorage) (name : String) :
    ∃ st, getStore (openCache name cs) name = some st := by
  unfold openCache
  split
  · next hany =>
    obtain ⟨p, hp, hpn⟩ := List.any_eq_true.mp hany
    have hsome : (cs.find? (fun p => p.1 == name)).isSome :=
      List.find?_isSome.mpr ⟨p, hp, hpn⟩
    obtain ⟨q, hq⟩ := Option.isSome_iff_exists.mp hsome
    exact ⟨q.2, by simp [getStore, hq]⟩
  · next hany =>
    have hnone : cs.find? (fun p => p.1 == name) = none := by
      rw [List.find?_eq_none]
      intro x hx hpx
      exact hany (List.any_eq_true.mpr ⟨x, hx, hpx⟩)
    exact ⟨[], by simp [getStore, List.find?_append, hnone, List.find?]⟩

theorem matchRequest_setStore_put (l : CacheStorage) (name url : String)
    (r : Response) :
    ∀ st, matchRequest l url = none → getStore l name = some st →
    matchRequest (setStore l name (putEntry st url r)) url = some r := by
  induction l with
  | nil => intro st _ hg; simp [getStore, List.find?] at hg
  | cons p ps ih =>
    intro st hm hg
    rw [matchRequest, List.findSome?_cons] at hm
    cases hl : lookupEntry p.2 url with
    | some v => rw [hl] at hm; cases hm
    | none =>
      rw [hl] at hm
      cases hb : (p.1 == name) with
      | true =>
        have hst : st = p.2 := by
          rw [getStore, List.find?_cons] at hg
          rw [hb] at hg
          simp at hg
          exact hg.symm
        rw [setStore]
        rw [hb]
        simp only [if_true]
        rw [matchRequest, List.findSome?_cons]
        have : lookupEntry (putEntry st url r) url = some r :=
          lookupEntry_putEntry_self st url r
        simp [this]
      | false =>
        have hg2 : getStore ps name = some st := by
          rw [getStore, List.find?_cons] at hg
          rw [hb] at hg
          exact hg
        rw [setStore]
        rw [hb]
        simp only [Bool.false_eq_true, if_false]
        rw [matchRequest, List.findSome?_cons, hl]
        exact ih st hm hg2

/-- On a cache miss everywhere, the write-through `cache.put` makes the
response retrievable by the same request key. -/
theorem matchRequest_putInStorage (cs : CacheStorage) (name url : String)
    (r : Response) (h : matchRequest cs url = none) :
    matchRequest (putInStorage cs name url r) url = some r := by
  obtain ⟨st, hst⟩ := getStore_openCache_isSome cs name
  have hm1 : matchRequest (openCache name cs) url = none :=
    matchRequest_openCache cs name url h
  rw [putInStorage, hst]
  exact matchRequest_setStore_put (openCache name cs) name url r st hm1 hst

/-- C6: for a non-CDN request missing from every cache store (with the
lookup itself succeeding), the handler fetches the network: a 200 `basic`
response is returned to the caller AND its clone is stored so that an
equivalent entry is retrievable by the same request key afterwards; any
non-200 or non-`basic` response is returned unmodified and nothing is
cached. -/
theorem claim_C6_write_through (env : FetchEnv) (cs : CacheStorage)
    (url : String) (r : Response)
    (hcdn : startsWithStr url "https://cdn.jsdelivr.net/" = false)
    (hmf : env.matchFails = false)
    (hmiss : matchRequest cs url = none)
    (hnet : env.net url = .ok r) :
    (r.status = 200 → r.rtype = "basic" → env.putFails = false →
      (onFetch env cs url).response = r ∧
      matchRequest (onFetch env cs url).storage url = some r) ∧
    ((r.status ≠ 200 ∨ r.rtype ≠ "basic") →
      (onFetch env cs url).response = r ∧
      (onFetch env cs url).storage = cs) := by
  constructor
  · intro h200 hbasic hpf
    have hcond : ¬(r.status ≠ 200 ∨ r.rtype ≠ "basic") := by
      simp [h200, hbasic]
    have hstep : onFetch env cs url = ⟨r, putInStorage cs CACHE_NAME url r, false⟩ := by
      simp only [onFetch, hcdn, Bool.false_eq_true, if_false, hmf, hmiss, hnet]
      rw [if_neg hcond, hpf]
      simp
    rw [hstep]
    exact ⟨rfl, matchRequest_putInStorage cs CACHE_NAME url r hmiss⟩
  · intro hbad
    have hstep : onFetch env cs url = ⟨r, cs, false⟩ := by
      simp only [onFetch, hcdn, Bool.false_eq_true, if_false, hmf, hmiss, hnet]
      rw [if_pos hbad]
    rw [hstep]
    exact ⟨rfl, rfl⟩

/-- A concrete same-origin 200 response, for witnesses. -/
def okBasicResponse : Response :=
  { status := 200, statusText := "OK", rtype := "basic", body := "asset" }

theorem claim_C6_write_through_witness :
    (onFetch ⟨fun _ => .ok okBasicResponse, false, false⟩ []
        "/PWA-QR-Reader/styles.css").response = okBasicResponse ∧
    matchRequest (onFetch ⟨fun _ => .ok okBasicResponse, false, false⟩ []
        "/PWA-QR-Reader/styles.css").storage "/PWA-QR-Reader/styles.css" =
      some okBasicResponse :=
  (claim_C6_write_through ⟨fun _ => .ok okBasicResponse, false, false⟩ []
      "/PWA-QR-Reader/styles.css" okBasicResponse (by decide) rfl rfl rfl).1
    rfl rfl rfl

/-- An environment whose write-through `cache.put` rejects. -/
def putFailEnv : FetchEnv :=
  { net := fun _ => .ok okBasicResponse, matchFails := false, putFails := true }

/-- C8 counterexample: a failure during the write-through store does NOT
produce a synthesized 503 — the 200 network response is returned to the
caller and the store rejection escapes the handler as an unhandled
rejection of the detached `caches.open(...).then(cache.put)` promise. -/
theorem claim_C8_counterexample :
    (onFetch putFailEnv [] "/PWA-QR-Reader/index.html").response.status = 200 ∧
    (onFetch putFailEnv [] "/PWA-QR-Reader/index.html").response ≠ offlineResponse ∧
    (onFetch putFailEnv [] "/PWA-QR-Reader/index.html").unhandledRejection = true := by
  refine ⟨?_, ?_, ?_⟩ <;> decide

/-- C8 amended: for a non-CDN request, a failure of the cache lookup or of
the network fetch does yield the synthesized 503 (and the handler, being
a total function, always resolves with some response); but a failure of
the write-through store does not: the original network response is
returned, the cache is unchanged, and the store rejection escapes as an
unhandled rejection of the detached put promise. -/
theorem claim_C8_fallback (env : FetchEnv) (cs : CacheStorage) (url : String)
    (hcdn : startsWithStr url "https://cdn.jsdelivr.net/" = false) :
    (env.matchFails = true → (onFetch env cs url).response = offlineResponse) ∧
    (env.matchFails = false → matchRequest cs url = none →
      ∀ e, env.net url = .error e →
        (onFetch env cs url).response = offlineResponse) ∧
    (env.matchFails = false → matchRequest cs url = none →
      ∀ r, env.net url = .ok r → r.status = 200 → r.rtype = "basic" →
        env.putFails = true →
        (onFetch env cs url).response = r ∧
        (onFetch env cs url).storage = cs ∧
        (onFetch env cs url).unhandledRejection = true) := by
  refine ⟨?_, ?_, ?_⟩
  · intro hmf
    simp [onFetch, hcdn, hmf]
  · intro hmf hmiss e hnet
    simp [onFetch, hcdn, hmf, hmiss, hnet]
  · intro hmf hmiss r hnet h200 hbasic hpf
    have hcond : ¬(r.status ≠ 200 ∨ r.rtype ≠ "basic") := by
      simp [h200, hbasic]
    have hstep : onFetch env cs url = ⟨r, cs, true⟩ := by
      simp only [onFetch, hcdn, Bool.false_eq_true, if_false, hmf, hmiss, hnet]
      rw [if_neg hcond, hpf]
      simp
    rw [hstep]
    exact ⟨rfl, rfl, rfl⟩

/-- An environment whose `caches.match` rejects. -/
def lookupFailEnv : FetchEnv :=
  { net := fun _ => .ok okBasicResponse, matchFails := true, putFails := false }

theorem claim_C8_fallback_witness :
    (onFetch lookupFailEnv [] "/PWA-QR-Reader/").response = offlineResponse ∧
    (onFetch putFailEnv [] "/PWA-QR-Reader/").unhandledRejection = true :=
  ⟨(claim_C8_fallback lookupFailEnv [] "/PWA-QR-Reader/" (by decide)).1 rfl,
   ((claim_C8_fallback putFailEnv [] "/PWA-QR-Reader/" (by decide)).2.2 rfl rfl
      okBasicResponse rfl rfl rfl rfl).2.2⟩

/-- The image of one character under `escapeHtml`'s replacement map
(src/app.js lines 262-268): the five HTML-special characters map to their
entities, every other character to itself. (`Char.ofNat 34` is the double
quote, `Char.ofNat 39` the apostrophe.) -/
def escapeHtmlChar (c : Char) : String :=
  if c = '&' then "&amp;"
  else if c = '<' then "&lt;"
  else if c = '>' then "&gt;"
  else if c = Char.ofNat 34 then "&quot;"
  else if c = Char.ofNat 39 then "&#039;"
  else String.singleton c

/-- `text.replace(/[&<>"']/g, m => map[m])` on the character list: the
concatenation of the per-character images. -/
def escapeHtmlList : List Char → List Char
  | [] => []
  | c :: cs => (escapeHtmlChar c).data ++ escapeHtmlList cs

/-- `escapeHtml(text)` (src/app.js lines 261-270). -/
def escapeHtml (text : String) : String :=
  ⟨escapeHtmlList text.data⟩

/-- `isValidUrl(string)` (src/app.js lines 247-254), parametrised by the
platform's WHATWG URL parser: `parseProtocol s` models
`(new URL(s)).protocol`, `none` when the `URL` constructor throws (the
`catch` branch returns false). -/
def isValidUrl (parseProtocol : String → Option String) (s : String) : Bool :=
  match parseProtocol s with
  | some proto => proto == "http:" || proto == "https:"
  | none => false

/-- The hyperlink template literal of `displayResult` (src/app.js lines
227-232), with `data` interpolated raw at both places. -/
def hyperlinkHtml (data : String) : String :=
  "\n                <p class=\"result-text\">\n                    <strong>URL:</strong><br>\n                    <a href=\""
    ++ data ++ "\" target=\"_blank\" rel=\"noopener noreferrer\">" ++ data
    ++ "</a>\n                </p>\n            "

/-- `displayResult(data)` (src/app.js lines 221-240): the HTML string
assigned to `resultDiv.innerHTML` — the hyperlink template when
`isValidUrl` holds, otherwise the escaped paragraph. -/
def displayResult (parseProtocol : String → Option String) (data : String) :
    String :=
  if isValidUrl parseProtocol data then
    hyperlinkHtml data
  else
    "<p class=\"result-text\">" ++ escapeHtml data ++ "</p>"

/-- Characters of a well-escaped HTML text fragment: no raw `<`, `>`,
double quote or apostrophe anywhere, and every `&` heads one of the five
entities produced by `escapeHtml`. -/
inductive WellEscaped : List Char → Prop where
  | nil : WellEscaped []
  | plain (c : Char) (l : List Char) :
      c ≠ '&' → c ≠ '<' → c ≠ '>' → c ≠ Char.ofNat 34 → c ≠ Char.ofNat 39 →
      WellEscaped l → WellEscaped (c :: l)
  | amp (l : List Char) : WellEscaped l →
      WellEscaped ('&' :: 'a' :: 'm' :: 'p' :: ';' :: l)
  | lt (l : List Char) : WellEscaped l →
      WellEscaped ('&' :: 'l' :: 't' :: ';' :: l)
  | gt (l : List Char) : WellEscaped l →
      WellEscaped ('&' :: 'g' :: 't' :: ';' :: l)
  | quot (l : List Char) : WellEscaped l →
      WellEscaped ('&' :: 'q' :: 'u' :: 'o' :: 't' :: ';' :: l)
  | apos (l : List Char) : WellEscaped l →
      WellEscaped ('&' :: '#' :: '0' :: '3' :: '9' :: ';' :: l)

theorem escapeHtmlList_wellEscaped : ∀ l : List Char, WellEscaped (escapeHtmlList l)
  | [] => WellEscaped.nil
  | c :: cs => by
    have ih := escapeHtmlList_wellEscaped cs
    by_cases h1 : c = '&'
    · have hstep : escapeHtmlList (c :: cs) =
          '&' :: 'a' :: 'm' :: 'p' :: ';' :: escapeHtmlList cs := by
        simp [escapeHtmlList, escapeHtmlChar, h1]
      rw [hstep]; exact WellEscaped.amp _ ih
    · by_cases h2 : c = '<'
      · have hstep : escapeHtmlList (c :: cs) =
            '&' :: 'l' :: 't' :: ';' :: escapeHtmlList cs := by
          simp [escapeHtmlList, escapeHtmlChar, h1, h2]
        rw [hstep]; exact WellEscaped.lt _ ih
      · by_cases h3 : c = '>'
        · have hstep : escapeHtmlList (c :: cs) =
              '&' :: 'g' :: 't' :: ';' :: escapeHtmlList cs := by
            simp [escapeHtmlList, escapeHtmlChar, h1, h2, h3]
          rw [hstep]; exact WellEscaped.gt _ ih
        · by_cases h4 : c = Char.ofNat 34
          · have hstep : escapeHtmlList (c :: cs) =
                '&' :: 'q' :: 'u' :: 'o' :: 't' :: ';' :: escapeHtmlList cs := by
              simp [escapeHtmlList, escapeHtmlChar, h1, h2, h3, h4]
            rw [hstep]; exact WellEscaped.quot _ ih
          · by_cases h5 : c = Char.ofNat 39
            · have hstep : escapeHtmlList (c :: cs) =
                  '&' :: '#' :: '0' :: '3' :: '9' :: ';' :: escapeHtmlList cs := by
                simp [escapeHtmlList, escapeHtmlChar, h1, h2, h3, h4, h5]
              rw [hstep]; exact WellEscaped.apos _ ih
            · have hstep : escapeHtmlList (c :: cs) = c :: escapeHtmlList cs := by
                simp [escapeHtmlList, escapeHtmlChar, h1, h2, h3, h4, h5,
                  String.singleton]
              rw [hstep]; exact WellEscaped.plain c _ h1 h2 h3 h4 h5 ih

/-- C10: `displayResult` renders the clickable hyperlink exactly when
`isValidUrl` holds, which happens exactly when the platform URL parser
succeeds with protocol `http:` or `https:` (so `javascript:` and every
other scheme is never hyperlinked); every other payload is inserted
through `escapeHtml`, whose output never contains a raw `<`, `>`, double
quote or apostrophe and whose every `&` heads one of the five produced
entities. -/
theorem claim_C10_display_safety (parseProtocol : String → Option String)
    (data : String) :
    (isValidUrl parseProtocol data = true ↔
      (∃ proto, parseProtocol data = some proto ∧
        (proto = "http:" ∨ proto = "https:"))) ∧
    (isValidUrl parseProtocol data = true →
      displayResult parseProtocol data = hyperlinkHtml data) ∧
    (isValidUrl parseProtocol data = false →
      displayResult parseProtocol data =
        "<p class=\"result-text\">" ++ escapeHtml data ++ "</p>") ∧
    WellEscaped (escapeHtml data).data := by
  refine ⟨?_, ?_, ?_, escapeHtmlList_wellEscaped data.data⟩
  · unfold isValidUrl
    cases hp : parseProtocol data with
    | none => simp
    | some proto => simp [hp]
  · intro h
    simp [displayResult, h]
  · intro h
    simp [displayResult, h]

theorem claim_C10_display_safety_witness :
    isValidUrl (fun _ => some "javascript:") "javascript:alert(1)" = false ∧
    displayResult (fun _ => some "javascript:") "javascript:alert(1)" =
      "<p class=\"result-text\">" ++ escapeHtml "javascript:alert(1)" ++ "</p>" :=
  ⟨by decide,
   (claim_C10_display_safety (fun _ => some "javascript:")
      "javascript:alert(1)").2.2.1 (by decide)⟩
